import Mathlib

/-!
A shallow embedding of the `squery-pg` library (connection pool and schema
migration runner) together with theorems checking its specification.

The embedding follows the source files `squery_pg/migrations.py`,
`squery_pg/pool.py` and `squery_pg/squery_pg.py`.  Python integers are
modelled as `Int` (they are unbounded), filenames and messages as
`List Char`, effectful code as explicit state passing, and fallible code
with explicit outcome types.
-/

namespace SqueryPg

/-! ## Version packing (`migrations.py`: `pack_version` / `unpack_version`)

`VERSION_MULTIPLIER = 10000`.  `pack_version` computes
`major_version * VERSION_MULTIPLIER + minor_version`; `unpack_version`
computes `minor = version % VERSION_MULTIPLIER` and
`major = (version - minor) / VERSION_MULTIPLIER` (the division is exact).
-/

def VERSION_MULTIPLIER : Int := 10000

def pack_version (major_version minor_version : Int) : Int :=
  major_version * VERSION_MULTIPLIER + minor_version

def unpack_version (version : Int) : Int × Int :=
  let minor_version := version % VERSION_MULTIPLIER
  let major_version := (version - minor_version) / VERSION_MULTIPLIER
  (major_version, minor_version)

/-! ## Migration discovery (`migrations.py`: `PYMOD_RE`, `get_mods`)

`PYMOD_RE = re.compile(r'^((\d{2})_(\d{2})_[^.]+)\.pyc?$', re.I)`.
A directory entry matches when it has the shape
`d1 d2 '_' d3 d4 '_' body '.' ext` with `d1..d4` decimal digits, `body`
non-empty and dot-free, and `ext` one of `py`/`pyc` up to letter case
(case-insensitivity only affects the extension letters: digits, `_`,
`.` and the `[^.]` class are unaffected by `re.I`).
`get_mods` keeps, for every matching entry, the triple
(name without extension, int(major digits), int(minor digits)),
removes exact duplicates (`set`) and sorts by `(major, minor)`.
-/

structure Mod where
  name : List Char
  major : Int
  minor : Int
deriving DecidableEq, Repr

def digitVal (c : Char) : Int :=
  (c.toNat : Int) - 48

/-- The `\.pyc?$` part of `PYMOD_RE`: the characters after the dot, matched
case-insensitively. -/
def extOk (e : List Char) : Bool :=
  match e with
  | [p, y] => p.toLower == 'p' && y.toLower == 'y'
  | [p, y, c] => p.toLower == 'p' && y.toLower == 'y' && c.toLower == 'c'
  | _ => false

/-- Split `rest` at its first dot into the `[^.]+` body and the extension
after the dot; `none` when `rest` has no dot at all. -/
def splitBody : List Char → Option (List Char × List Char)
  | [] => none
  | ch :: rest =>
    if ch == '.' then some ([], rest)
    else
      match splitBody rest with
      | some (b, e) => some (ch :: b, e)
      | none => none

/-- Matching one directory entry against `PYMOD_RE`, returning the parsed
triple `(name without extension, major, minor)` on success. -/
def pymodMatch (f : List Char) : Option Mod :=
  match f with
  | a :: b :: u1 :: c :: d :: u2 :: rest =>
    if a.isDigit && b.isDigit && u1 == '_' && c.isDigit && d.isDigit && u2 == '_' then
      match splitBody rest with
      | some (body, ext) =>
        if !body.isEmpty && extOk ext then
          some ⟨[a, b, u1, c, d, u2] ++ body,
                10 * digitVal a + digitVal b,
                10 * digitVal c + digitVal d⟩
        else none
      | none => none
    else none
  | _ => none

/-- The sort key of `get_mods`: `key=lambda x: (x[1], x[2])`, i.e.
lexicographic on `(major, minor)`. -/
def modKeyLe (x y : Mod) : Prop :=
  x.major < y.major ∨ (x.major = y.major ∧ x.minor ≤ y.minor)

instance : DecidableRel modKeyLe := fun x y => by
  unfold modKeyLe; infer_instance

instance : IsTotal Mod modKeyLe := by
  constructor
  intro a b
  unfold modKeyLe
  omega

instance : IsTrans Mod modKeyLe := by
  constructor
  intro a b c hab hbc
  unfold modKeyLe at *
  omega

/-- `get_mods`: parse every entry of the directory listing with `PYMOD_RE`,
drop non-matching entries, remove exact duplicate triples (`set`) and sort
by `(major, minor)`. -/
def get_mods (listing : List (List Char)) : List Mod :=
  List.insertionSort modKeyLe (listing.filterMap pymodMatch).dedup

/-! ## Pending-migration selection (`migrations.py`: `get_new`, `migrate`)

`get_new` filters, preserving order; `migrate` calls it with the current
major version and `current_minor_version + 1`.
-/

def get_new (modules : List Mod) (min_major_version min_minor_version : Int) :
    List Mod :=
  modules.filter fun m =>
    decide (m.major > min_major_version ∨
      (m.major = min_major_version ∧ m.minor ≥ min_minor_version))

/-- The pending list computed inside `migrate`:
`get_new (get_mods package) current_major (current_minor + 1)`. -/
def migratePending (listing : List (List Char))
    (current_major current_minor : Int) : List Mod :=
  get_new (get_mods listing) current_major (current_minor + 1)

/-! ## Version lookup (`migrations.py`: `get_version`, `recreate`, `set_version`)

`get_version` runs `db.fetchone(GET_VERSION_SQL, ...)`.  On a
`psycopg2.ProgrammingError` whose text contains the substring
`'does not exist'` it calls `recreate` (drop and rebuild the database,
re-create the `migrations` table, write version 0); any other error is
re-raised.  A `None` row writes version 0 and returns `(0, 0)`; a present
row is unpacked.  The database side is modelled by the outcome the lookup
would produce plus a trace of the side effects performed.
-/

structure PgError where
  isProgrammingError : Bool
  msg : List Char
deriving DecidableEq, Repr

/-- Python's `in` on strings: `pat` occurs as a contiguous substring. -/
def hasSubstr (pat : List Char) : List Char → Bool
  | [] => pat.isEmpty
  | c :: rest => pat.isPrefixOf (c :: rest) || hasSubstr pat rest

inductive FetchOutcome where
  | ok : Option Int → FetchOutcome
  | raised : PgError → FetchOutcome
deriving DecidableEq, Repr

inductive DbEvent where
  | droppedDatabase
  | createdDatabase
  | createdMigrationTable
  | wroteVersion : List Char → Int → DbEvent
deriving DecidableEq, Repr

/-- The database state seen by `get_version`: the outcome its single lookup
produces, and the trace of side effects performed so far. -/
structure MigDb where
  lookup : FetchOutcome
  trace : List DbEvent
deriving DecidableEq, Repr

/-- `set_version`: `db.execute(SET_VERSION_SQL, ...)` with the packed value. -/
def mig_set_version (db : MigDb) (name : List Char)
    (major_version minor_version : Int) : MigDb :=
  { db with trace := db.trace ++
      [.wroteVersion name (pack_version major_version minor_version)] }

/-- `recreate`: `db.recreate()` (drop + create the database), re-create the
migrations table, write version 0 for `name`, and return `(0, 0)`. -/
def recreate (db : MigDb) (name : List Char) : (Int × Int) × MigDb :=
  let db1 : MigDb := { db with trace := db.trace ++
      [.droppedDatabase, .createdDatabase, .createdMigrationTable] }
  ((0, 0), mig_set_version db1 name 0 0)

/-- The substring tested by `get_version` on a `ProgrammingError`. -/
def doesNotExistPat : List Char := "does not exist".toList

/-- `get_version`: the three successful outcomes and the error path. -/
def get_version (db : MigDb) (name : List Char) :
    Except PgError ((Int × Int) × MigDb) :=
  match db.lookup with
  | .raised exc =>
    if exc.isProgrammingError && hasSubstr doesNotExistPat exc.msg then
      .ok (recreate db name)
    else
      .error exc
  | .ok none => .ok ((0, 0), mig_set_version db name 0 0)
  | .ok (some version) => .ok (unpack_version version, db)

/-! ## Running migrations (`migrations.py`: `run_migration`, `migrate`;
`squery_pg.py`: `Database.execute`, `Database.transaction`;
`pool.py`: `connection`, `cursor`, `execute`)

`run_migration` wraps `mod.up(db, conf)` and `set_version` in
`with db.transaction()`.  `db.transaction()` is `pool.cursor()`, a
connection scope that commits on normal exit and rolls back on error.
Crucially, every statement a script issues through the facade
(`db.execute` → `pool.execute` → `pool.cursor()` → `pool.connection()`)
opens its *own* connection scope, which commits when that statement's
scope exits (`conn.commit()` in `pool.connection`).  The connection state
is modelled as a committed effect list plus the pending (uncommitted)
statements of the current transaction; `dbExecute` appends the statement
and then commits everything pending, exactly as the nested scope does.
-/

inductive Stmt where
  | eff : Nat → Stmt
  | setVer : List Char → Int → Stmt
deriving DecidableEq, Repr

structure TxDb where
  committed : List Stmt
  pending : List Stmt
deriving DecidableEq, Repr

/-- `Database.execute`: runs one statement inside its own
`pool.connection()` scope, whose normal exit commits the connection. -/
def dbExecute (d : TxDb) (s : Stmt) : TxDb :=
  { committed := d.committed ++ d.pending ++ [s], pending := [] }

/-- A migration script's `up` body, as the sequence of things it does
through the facade: issue a statement, or raise. -/
inductive UpStep where
  | stmt : Stmt → UpStep
  | raiseErr : UpStep
deriving DecidableEq, Repr

/-- Run an `up` body; returns the database state and whether it raised. -/
def runUp : List UpStep → TxDb → TxDb × Bool
  | [], d => (d, false)
  | .stmt s :: rest, d => runUp rest (dbExecute d s)
  | .raiseErr :: _, d => (d, true)

/-- `run_migration`: `with db.transaction(): mod.up(db, conf);
set_version(db, name, major, minor)`.  The outer scope commits the
connection on normal exit and rolls it back (discarding pending,
uncommitted work) when the body raised. -/
def run_migration (name : List Char) (major_version minor_version : Int)
    (up : List UpStep) (d : TxDb) : TxDb × Bool :=
  let (d1, raised) := runUp up d
  if raised then
    ({ d1 with pending := [] }, true)
  else
    let d2 := dbExecute d1 (.setVer name (pack_version major_version minor_version))
    ({ committed := d2.committed ++ d2.pending, pending := [] }, false)

/-- The application loop of `migrate` over the pending scripts: run each in
order, halting at the first failure. -/
def migrateScripts (name : List Char) :
    List (Int × Int × List UpStep) → TxDb → TxDb × Bool
  | [], d => (d, false)
  | (mj, mi, up) :: rest, d =>
    let (d1, raised) := run_migration name mj mi up d
    if raised then (d1, true) else migrateScripts name rest d1

/-- The version recorded for `name` by the committed statements: the value
of the last `SET_VERSION_SQL` upsert, if any. -/
def storedVersion (l : List Stmt) (name : List Char) : Option Int :=
  l.foldl (fun acc s =>
    match s with
    | .setVer n v => if n = name then some v else acc
    | .eff _ => acc) none

/-! ## The connection pool (`pool.py`: `DatabaseConnectionPool`)

Bounded mode (`maxsize != 1`): a FIFO queue of idle connections plus a
live/created counter `size`.  `multi_get` pops the queue when
`size >= maxsize or qsize()` (blocking when the queue is empty), else
increments `size` and creates a connection, decrementing again if
creation fails.  `multi_put` appends; `multi_closeall` drains the queue,
closing each drained connection.
-/

inductive ConnOp where
  | setIsoOp : Int → ConnOp
  | commitOp
  | rollbackOp
  | closeOp
deriving DecidableEq, Repr

structure Conn where
  id : Nat
  closed : Bool
  isoLevel : Int
  trace : List ConnOp
deriving DecidableEq, Repr

def setIso (c : Conn) (l : Int) : Conn :=
  { c with isoLevel := l, trace := c.trace ++ [.setIsoOp l] }

def connCommit (c : Conn) : Conn :=
  { c with trace := c.trace ++ [.commitOp] }

def connRollback (c : Conn) : Conn :=
  { c with trace := c.trace ++ [.rollbackOp] }

def connClose (c : Conn) : Conn :=
  { c with closed := true, trace := c.trace ++ [.closeOp] }

structure Pool where
  maxsize : Int
  queue : List Conn
  size : Int
deriving DecidableEq, Repr

/-- Outcome of `create_connection()` during an acquire. -/
inductive CreateOutcome where
  | ok : Conn → CreateOutcome
  | fail : CreateOutcome
deriving DecidableEq, Repr

inductive GetResult where
  | got : Conn → Pool → GetResult
  | blocked
  | createFailed : Pool → GetResult
deriving DecidableEq, Repr

/-- `multi_get`: `if self.size >= self.maxsize or pool.qsize(): return
pool.get()` (a blocking pop of the FIFO queue), `else` increment `size`,
create a connection, and on creation failure decrement `size` back and
re-raise. -/
def multi_get (create : CreateOutcome) (p : Pool) : GetResult :=
  if p.size ≥ p.maxsize ∨ p.queue.length ≠ 0 then
    match p.queue with
    | [] => .blocked
    | c :: rest => .got c { p with queue := rest }
  else
    match create with
    | .ok c => .got c { p with size := p.size + 1 }
    | .fail => .createFailed { p with size := p.size + 1 - 1 }

def multi_put (c : Conn) (p : Pool) : Pool :=
  { p with queue := p.queue ++ [c] }

/-- `multi_closeall`: drain the queue, closing every drained connection
(best effort); returns the new pool state and the closed connections. -/
def multi_closeall (p : Pool) : Pool × List Conn :=
  ({ p with queue := [] }, p.queue.map connClose)

/-- What the caller's body does with the yielded connection: transforms its
state and reports whether it raised. -/
structure BodyOutcome where
  connAfter : Conn
  raisedErr : Bool

inductive ScopeOut where
  | blocked
  | createFail : Pool → ScopeOut
  | ok : Pool → ScopeOut
  | bodyErr : Pool → ScopeOut
  | commitClosed : Pool → ScopeOut
deriving DecidableEq, Repr

/-- Lines 116-120 of `pool.py`: when an isolation level is requested and
differs from the connection's current one, set it on the connection; the
local variable keeps the requested level (it is set to `None` when the
levels already agree). -/
def isoAdjust (isolation_level : Option Int) (conn : Conn) :
    Conn × Option Int :=
  match isolation_level with
  | none => (conn, none)
  | some lvl =>
    if conn.isoLevel == lvl then (conn, none)
    else (setIso conn lvl, some lvl)

/-- The `finally` block's isolation handling (`pool.py` line 136-137):
`set_isolation_level` is called again with the still-stored *requested*
level whenever one was recorded. -/
def restoreIso (c : Conn) (isoVar : Option Int) : Conn :=
  match isoVar with
  | none => c
  | some lvl => setIso c lvl

/-- The `try/except/else/finally` of `pool.py` lines 115-138, after the
connection has been acquired. -/
def scopeBody (isolation_level : Option Int) (body : Conn → BodyOutcome)
    (rollbackFails : Bool) (conn : Conn) (p1 : Pool) : ScopeOut :=
  let ad := isoAdjust isolation_level conn
  let out := body ad.1
  if out.raisedErr then
    if out.connAfter.closed then
      .bodyErr (multi_closeall p1).1
    else if rollbackFails then
      .bodyErr p1
    else
      .bodyErr (multi_put (restoreIso (connRollback out.connAfter) ad.2) p1)
  else
    if out.connAfter.closed then
      .commitClosed p1
    else
      .ok (multi_put (restoreIso (connCommit out.connAfter) ad.2) p1)

/-- `DatabaseConnectionPool.connection(isolation_level)` in bounded mode:
acquire via `multi_get`; when a different isolation level is requested,
set it (keeping the requested level in the local variable); run the body;
on error, flush the whole reservoir when the connection reports closed,
otherwise roll it back (a failing rollback makes `_rollback` return
`None`, dropping the connection); on normal exit, raise when the
connection is closed, else commit; finally, when the connection is still
held and open, re-apply the requested isolation level and put the
connection back. -/
def connectionScope (isolation_level : Option Int)
    (body : Conn → BodyOutcome) (create : CreateOutcome)
    (rollbackFails : Bool) (p : Pool) : ScopeOut :=
  match multi_get create p with
  | .blocked => .blocked
  | .createFailed p1 => .createFail p1
  | .got conn p1 => scopeBody isolation_level body rollbackFails conn p1

/-! ## Pool construction (`pool.py`: `DatabaseConnectionPool.__init__`) -/

/-- A Python value passed as the `maxsize` argument. -/
inductive PyVal where
  | pyInt : Int → PyVal
  | nonInt : Nat → PyVal
deriving DecidableEq, Repr

structure PoolInit where
  maxsize : Int
  singleMode : Bool
  size : Int
deriving DecidableEq, Repr

inductive InitResult where
  | ok : PoolInit → InitResult
  | typeError
deriving DecidableEq, Repr

/-- `__init__(self, maxsize=100)`: raise `TypeError` unless `maxsize` is an
integer; set up single-connection mode when it equals 1; `size = 0`. -/
def pool_init (maxsize : PyVal) : InitResult :=
  match maxsize with
  | .pyInt n => .ok ⟨n, n == 1, 0⟩
  | .nonInt _ => .typeError

/-! ## Pool operation sequences (for the size invariant) -/

inductive PoolOp where
  | acquire : CreateOutcome → PoolOp
  | release : Conn → PoolOp
  | closeall
deriving Repr

/-- One pool operation: an acquire (a blocked acquire leaves the state
untouched while the task waits), a release, or a close-all. -/
def poolStep (p : Pool) : PoolOp → Pool
  | .acquire create =>
    match multi_get create p with
    | .got _ p1 => p1
    | .blocked => p
    | .createFailed p1 => p1
  | .release c => multi_put c p
  | .closeall => (multi_closeall p).1

def poolRun (p : Pool) (ops : List PoolOp) : Pool :=
  ops.foldl poolStep p

/-- The spec's migration script naming convention, following the spec's own
words: a module name conforms when it matches
`^([0-9]{2})_([0-9]{2})_[^.]+$` (case-insensitivity is immaterial here:
the pattern contains no letters). -/
def specNameConvention (s : List Char) : Bool :=
  match s with
  | a :: b :: u1 :: c :: d :: u2 :: body =>
    a.isDigit && b.isDigit && (u1 == '_') && c.isDigit && d.isDigit &&
      (u2 == '_') && !body.isEmpty && body.all (fun ch => ch != '.')
  | _ => false

/-- The spec's classification of the bootstrap error, following the spec's
own words: a "relation/table does not exist" database error. -/
def specRelationTableMissing (e : PgError) : Bool :=
  e.isProgrammingError &&
    (hasSubstr "relation".toList e.msg || hasSubstr "table".toList e.msg) &&
    hasSubstr "does not exist".toList e.msg

/-! ## Theorems -/

theorem splitBody_sound :
    ∀ (r b e : List Char), splitBody r = some (b, e) →
      r = b ++ '.' :: e ∧ b.all (fun ch => ch != '.') = true := by
  intro r
  induction r with
  | nil => intro b e h; simp [splitBody] at h
  | cons ch rest ih =>
    intro b e h
    rw [splitBody] at h
    by_cases hdot : ch == '.'
    · rw [if_pos hdot] at h
      simp only [Option.some.injEq, Prod.mk.injEq] at h
      obtain ⟨hb, he⟩ := h
      subst hb; subst he
      simp [eq_of_beq hdot]
    · rw [if_neg hdot] at h
      cases hsb : splitBody rest with
      | none => rw [hsb] at h; exact absurd h (by simp)
      | some pe =>
        obtain ⟨bs, es⟩ := pe
        rw [hsb] at h
        simp only [Option.some.injEq, Prod.mk.injEq] at h
        obtain ⟨rfl, rfl⟩ := h
        obtain ⟨h1, h2⟩ := ih bs es hsb
        rw [h1]
        refine ⟨by simp, ?_⟩
        simp only [List.all_cons, Bool.and_eq_true, h2, and_true]
        simpa using hdot

theorem splitBody_complete :
    ∀ (b : List Char), b.all (fun ch => ch != '.') = true →
      ∀ e, splitBody (b ++ '.' :: e) = some (b, e) := by
  intro b
  induction b with
  | nil => intro _ e; simp [splitBody]
  | cons ch bs ih =>
    intro hall e
    simp only [List.all_cons, Bool.and_eq_true] at hall
    rw [List.cons_append, splitBody, ih hall.2 e, if_neg (by simpa using hall.1)]

theorem pymodMatch_name_conforms (f : List Char) (m : Mod)
    (h : pymodMatch f = some m) : specNameConvention m.name = true := by
  rcases f with _ | ⟨a, _ | ⟨b, _ | ⟨u1, _ | ⟨c, _ | ⟨d, _ | ⟨u2, rest⟩⟩⟩⟩⟩⟩ <;>
    first
      | (exfalso; revert h; simp [pymodMatch]; done)
      | skip
  simp only [pymodMatch] at h
  split at h
  case isFalse => exact absurd h (by simp)
  case isTrue hcond =>
    cases hsb : splitBody rest with
    | none => rw [hsb] at h; exact absurd h (by simp)
    | some pe =>
      obtain ⟨body, ext⟩ := pe
      rw [hsb] at h
      dsimp only at h
      split at h
      case isFalse => exact absurd h (by simp)
      case isTrue hbe =>
        simp only [Option.some.injEq] at h
        subst h
        obtain ⟨hshape, hdots⟩ := splitBody_sound rest body ext hsb
        simp only [Bool.and_eq_true] at hcond hbe
        simp only [specNameConvention, List.cons_append, List.nil_append]
        simp [hcond.1.1.1.1.1, hcond.1.1.1.1.2, hcond.1.1.1.2, hcond.1.1.2,
          hcond.1.2, hcond.2, hbe.1, hdots]

theorem conforming_stem_participates (stem : List Char)
    (h : specNameConvention stem = true) :
    ∃ mj mi, pymodMatch (stem ++ '.' :: 'p' :: 'y' :: []) = some ⟨stem, mj, mi⟩ := by
  rcases stem with _ | ⟨a, _ | ⟨b, _ | ⟨u1, _ | ⟨c, _ | ⟨d, _ | ⟨u2, body⟩⟩⟩⟩⟩⟩ <;>
    first
      | (exfalso; revert h; simp [specNameConvention]; done)
      | skip
  simp only [specNameConvention, Bool.and_eq_true] at h
  refine ⟨10 * digitVal a + digitVal b, 10 * digitVal c + digitVal d, ?_⟩
  simp only [List.cons_append, List.nil_append]
  simp only [pymodMatch]
  rw [if_pos (by simp [h.1.1.1.1.1.1.1, h.1.1.1.1.1.1.2, h.1.1.1.1.1.2,
    h.1.1.1.1.2, h.1.1.1.2, h.1.1.2])]
  rw [splitBody_complete body h.2 ('p' :: 'y' :: [])]
  dsimp only
  rw [if_pos ((Bool.and_eq_true _ _).mpr ⟨h.1.2, by decide⟩)]
  rfl

/-- C9: discovery (`get_mods`) returns a sequence sorted ascending by
`(major, minor)` with duplicate parsed identities collapsed to a single
entry; exactly the directory entries matched by `PYMOD_RE` participate —
every participating entry's parsed module name conforms to the spec's
case-insensitive `^([0-9]{2})_([0-9]{2})_[^.]+$` convention with the first
digit group as major and the second as minor, every conforming module name
participates through its `.py` file, and every other name is silently
ignored. -/
theorem discovery_sorted_dedup_convention (listing : List (List Char)) :
    List.Sorted modKeyLe (get_mods listing) ∧
    (get_mods listing).Nodup ∧
    (∀ m : Mod, m ∈ get_mods listing ↔ ∃ f ∈ listing, pymodMatch f = some m) ∧
    (∀ f m, pymodMatch f = some m → specNameConvention m.name = true) ∧
    (∀ stem, specNameConvention stem = true →
      ∃ mj mi, pymodMatch (stem ++ '.' :: 'p' :: 'y' :: []) = some ⟨stem, mj, mi⟩) := by
  refine ⟨?_, ?_, ?_, ?_, ?_⟩
  · exact List.sorted_insertionSort modKeyLe _
  · exact ((List.perm_insertionSort modKeyLe _).nodup_iff).mpr (List.nodup_dedup _)
  · intro m
    rw [get_mods, List.mem_insertionSort, List.mem_dedup, List.mem_filterMap]
  · exact pymodMatch_name_conforms
  · exact conforming_stem_participates

/-- Witness for C9: `01_02_x` conforms to the naming convention and its
`.py` file participates in discovery. -/
theorem discovery_sorted_dedup_convention_witness :
    specNameConvention "01_02_x".toList = true ∧
    ∃ mj mi, pymodMatch ("01_02_x".toList ++ '.' :: 'p' :: 'y' :: []) =
      some ⟨"01_02_x".toList, mj, mi⟩ :=
  ⟨by decide, (discovery_sorted_dedup_convention []).2.2.2.2 _ (by decide)⟩

/-- C3: the pending list computed by `migrate` contains exactly the
discovered scripts with `major > current.major`, or `major = current.major`
and `minor ≥ current.minor + 1`, in ascending `(major, minor)` order; at
current version `(1, 2)` the scripts `(1,1), (1,2), (1,3), (2,0)` yield
exactly `(1,3), (2,0)` in that order. -/
theorem migrate_selects_new_scripts (listing : List (List Char))
    (cmaj cmin : Int) :
    (∀ m : Mod, m ∈ migratePending listing cmaj cmin ↔
      (m ∈ get_mods listing ∧
        (m.major > cmaj ∨ (m.major = cmaj ∧ m.minor ≥ cmin + 1)))) ∧
    List.Sorted modKeyLe (migratePending listing cmaj cmin) ∧
    migratePending
        ["01_01_a.py".toList, "01_02_b.py".toList,
         "01_03_c.py".toList, "02_00_d.py".toList] 1 2 =
      [⟨"01_03_c".toList, 1, 3⟩, ⟨"02_00_d".toList, 2, 0⟩] := by
  refine ⟨?_, ?_, ?_⟩
  · intro m
    rw [migratePending, get_new, List.mem_filter]
    simp only [decide_eq_true_eq]
  · exact List.Pairwise.sublist (List.filter_sublist _)
      (List.sorted_insertionSort modKeyLe _)
  · decide

/-- Witness for C3: the concrete pending list at current version `(1, 2)`. -/
theorem migrate_selects_new_scripts_witness :
    migratePending
        ["01_01_a.py".toList, "01_02_b.py".toList,
         "01_03_c.py".toList, "02_00_d.py".toList] 1 2 =
      [⟨"01_03_c".toList, 1, 3⟩, ⟨"02_00_d".toList, 2, 0⟩] :=
  (migrate_selects_new_scripts [] 0 0).2.2

/-- C7: for all integers `major ≥ 0` and `0 ≤ minor < 10000`,
`unpack_version (pack_version major minor) = (major, minor)`, both
recovered components are non-negative, and they are recovered as
`minor = version % 10000` and `major = (version - minor) / 10000`. -/
theorem pack_unpack_version_roundtrip (major minor : Int)
    (hmajor : 0 ≤ major) (hminor : 0 ≤ minor) (hlt : minor < 10000) :
    unpack_version (pack_version major minor) = (major, minor) ∧
    0 ≤ (unpack_version (pack_version major minor)).1 ∧
    0 ≤ (unpack_version (pack_version major minor)).2 ∧
    (unpack_version (pack_version major minor)).2 =
      pack_version major minor % 10000 ∧
    (unpack_version (pack_version major minor)).1 =
      (pack_version major minor - pack_version major minor % 10000) / 10000 := by
  simp only [unpack_version, pack_version, VERSION_MULTIPLIER, Prod.mk.injEq]
  refine ⟨⟨?_, ?_⟩, ?_, ?_, trivial, trivial⟩ <;> omega

/-- Witness for C7 at `(major, minor) = (12, 345)`. -/
theorem pack_unpack_version_roundtrip_witness :
    unpack_version (pack_version 12 345) = (12, 345) ∧
    0 ≤ (unpack_version (pack_version 12 345)).1 ∧
    0 ≤ (unpack_version (pack_version 12 345)).2 ∧
    (unpack_version (pack_version 12 345)).2 = pack_version 12 345 % 10000 ∧
    (unpack_version (pack_version 12 345)).1 =
      (pack_version 12 345 - pack_version 12 345 % 10000) / 10000 :=
  pack_unpack_version_roundtrip 12 345 (by decide) (by decide) (by decide)

/-- Counterexample for C4: a database error that is not a
"relation/table does not exist" error — a `ProgrammingError` reporting a
missing *column* — is not propagated: `get_version` swallows it and runs
the destructive recreate path, because the code only tests for the
substring `'does not exist'`. -/
theorem get_version_swallows_column_missing_error :
    specRelationTableMissing
      ⟨true, "column \x22version\x22 does not exist".toList⟩ = false ∧
    get_version
        ⟨.raised ⟨true, "column \x22version\x22 does not exist".toList⟩, []⟩
        "db".toList =
      .ok ((0, 0),
        ⟨.raised ⟨true, "column \x22version\x22 does not exist".toList⟩,
         [.droppedDatabase, .createdDatabase, .createdMigrationTable,
          .wroteVersion "db".toList 0]⟩) := by
  constructor
  · decide
  · rfl

/-- C4 (amended): `get_version` has exactly three successful outcomes —
`ProgrammingError` whose message contains the substring `does not exist`
(whatever object is missing): recreate the database, write version record
`(0, 0)` and return `(0, 0)`; row absent: write `(0, 0)` and return it;
row present: unpack and return its `(major, minor)` — and every error that
is not a `ProgrammingError` with that substring is propagated unchanged. -/
theorem get_version_outcomes (db : MigDb) (name : List Char) :
    (∀ exc, db.lookup = .raised exc →
      ((exc.isProgrammingError = true ∧
          hasSubstr doesNotExistPat exc.msg = true) →
        get_version db name = .ok ((0, 0),
          ⟨db.lookup, db.trace ++ [.droppedDatabase, .createdDatabase,
            .createdMigrationTable, .wroteVersion name 0]⟩)) ∧
      (¬(exc.isProgrammingError = true ∧
          hasSubstr doesNotExistPat exc.msg = true) →
        get_version db name = .error exc)) ∧
    (db.lookup = .ok none →
      get_version db name = .ok ((0, 0),
        ⟨db.lookup, db.trace ++ [.wroteVersion name 0]⟩)) ∧
    (∀ v, db.lookup = .ok (some v) →
      get_version db name = .ok (unpack_version v, db)) := by
  refine ⟨?_, ?_, ?_⟩
  · intro exc hl
    constructor
    · intro hcond
      simp [get_version, hl, recreate, mig_set_version, pack_version,
        VERSION_MULTIPLIER, hcond.1, hcond.2]
    · intro hcond
      simp only [get_version, hl]
      rw [if_neg (by simp only [Bool.and_eq_true]; exact hcond)]
  · intro hl
    simp [get_version, hl, mig_set_version, pack_version, VERSION_MULTIPLIER]
  · intro v hl
    simp [get_version, hl]

/-- Witness for C4 (amended) at a database whose lookup returns the packed
version `10002`. -/
theorem get_version_outcomes_witness :
    get_version ⟨.ok (some 10002), []⟩ "db".toList =
      .ok (unpack_version 10002, ⟨.ok (some 10002), []⟩) :=
  (get_version_outcomes ⟨.ok (some 10002), []⟩ "db".toList).2.2 10002 rfl

/-- C1 (evaluation at the failing input): a database recorded at version
`(0, 0)`, one pending script `(0, 1)` whose `up` issues one statement
through the facade and then raises.  The run halts and the stored version
is not advanced, but the statement issued by `up` persists in the
committed state: `Database.execute` opens its own connection scope which
commits on exit, so the transaction opened by `run_migration` protects
nothing — contradicting the claim (and `migrate`'s docstring) that a
failing script leaves no effects behind. -/
theorem failed_migration_effects_persist :
    (migrateScripts "db".toList
        [(0, 1, [.stmt (.eff 1), .raiseErr])]
        ⟨[.setVer "db".toList 0], []⟩).2 = true ∧
    Stmt.eff 1 ∈ (migrateScripts "db".toList
        [(0, 1, [.stmt (.eff 1), .raiseErr])]
        ⟨[.setVer "db".toList 0], []⟩).1.committed ∧
    storedVersion (migrateScripts "db".toList
        [(0, 1, [.stmt (.eff 1), .raiseErr])]
        ⟨[.setVer "db".toList 0], []⟩).1.committed "db".toList = some 0 := by
  decide

/-- Counterexample for C8: constructing a bounded pool with the integer
size 0 — below the spec's minimum of 1 — raises nothing: the invalid size
is accepted as-is. -/
theorem pool_init_accepts_zero_maxsize :
    pool_init (.pyInt 0) = .ok ⟨0, false, 0⟩ ∧ (0 : Int) < 1 := by
  exact ⟨rfl, by decide⟩

/-- C8 (amended): construction only type-checks the pool size — any
non-integer raises `TypeError` before any operation is served, and every
integer, including integers below 1, is accepted unchanged (never
coerced), with no range validation. -/
theorem pool_init_typechecks_only (v : PyVal) :
    (pool_init v = .typeError ↔ ∀ n : Int, v ≠ .pyInt n) ∧
    (∀ n : Int, v = .pyInt n → pool_init v = .ok ⟨n, n == 1, 0⟩) := by
  cases v with
  | pyInt m =>
    refine ⟨⟨fun h => absurd h (by simp [pool_init]), fun h => absurd rfl (h m)⟩,
      fun n h => ?_⟩
    injection h with h2
    subst h2
    rfl
  | nonInt t =>
    exact ⟨⟨fun _ n h => PyVal.noConfusion h, fun _ => rfl⟩,
      fun _ h => PyVal.noConfusion h⟩

/-- Witness for C8 (amended): the non-integer argument is rejected and the
integer argument 7 is accepted as-is. -/
theorem pool_init_typechecks_only_witness :
    pool_init (.nonInt 0) = .typeError ∧
    pool_init (.pyInt 7) = .ok ⟨7, false, 0⟩ :=
  ⟨(pool_init_typechecks_only (.nonInt 0)).1.mpr (fun _ h => PyVal.noConfusion h),
   (pool_init_typechecks_only (.pyInt 7)).2 7 rfl⟩

theorem poolStep_size_le (p : Pool) (op : PoolOp)
    (h : p.size ≤ p.maxsize) :
    (poolStep p op).size ≤ (poolStep p op).maxsize ∧
    (poolStep p op).maxsize = p.maxsize := by
  cases op with
  | acquire cr =>
    simp only [poolStep, multi_get]
    by_cases hcond : p.size ≥ p.maxsize ∨ p.queue.length ≠ 0
    · rw [if_pos hcond]
      cases hq : p.queue with
      | nil => exact ⟨h, rfl⟩
      | cons c rest => exact ⟨h, rfl⟩
    · rw [if_neg hcond]
      push_neg at hcond
      cases cr with
      | ok c => exact ⟨by simpa using hcond.1, rfl⟩
      | fail => exact ⟨by simpa using h, rfl⟩
  | release c => exact ⟨h, rfl⟩
  | closeall => exact ⟨h, rfl⟩

theorem poolRun_size_le (p : Pool) (ops : List PoolOp)
    (h : p.size ≤ p.maxsize) :
    (poolRun p ops).size ≤ (poolRun p ops).maxsize ∧
    (poolRun p ops).maxsize = p.maxsize := by
  induction ops generalizing p with
  | nil => exact ⟨h, rfl⟩
  | cons op rest ih =>
    obtain ⟨h1, h2⟩ := poolStep_size_le p op h
    obtain ⟨h3, h4⟩ := ih (poolStep p op) h1
    exact ⟨h3, h4.trans h2⟩

/-- C6: starting from a freshly constructed bounded pool of maximum size
`M ≥ 1`, no sequence of acquire/release/closeall operations ever drives
the live/created counter above `M`; and when connection creation fails
during an acquire that reached the creation branch (counter below the
bound, queue empty), the counter increment is rolled back and the error
propagates with the pool state unchanged. -/
theorem pool_size_bounded_and_create_rollback (M : Int) (ops : List PoolOp)
    (hM : 1 ≤ M) :
    (poolRun ⟨M, [], 0⟩ ops).size ≤ M ∧
    (∀ p : Pool, p.size < p.maxsize → p.queue = [] →
      multi_get .fail p = .createFailed p) := by
  constructor
  · obtain ⟨h1, h2⟩ := poolRun_size_le ⟨M, [], 0⟩ ops (by simp; omega)
    rw [h2] at h1
    exact h1
  · intro p h1 h2
    have hc : ¬(p.size ≥ p.maxsize ∨ p.queue.length ≠ 0) := by
      rw [h2]
      simp
      omega
    simp only [multi_get]
    rw [if_neg hc]
    have hs : p.size + 1 - 1 = p.size := by omega
    rw [hs]

/-- Witness for C6 at `M = 2` with a two-acquire, one-release, one-flush
run, and a creation failure on the pool `⟨2, [], 1⟩`. -/
theorem pool_size_bounded_and_create_rollback_witness :
    (poolRun ⟨2, [], 0⟩
        [.acquire (.ok ⟨0, false, 0, []⟩), .acquire (.ok ⟨1, false, 0, []⟩),
         .release ⟨0, false, 0, []⟩, .closeall]).size ≤ 2 ∧
    multi_get .fail ⟨2, [], 1⟩ = .createFailed ⟨2, [], 1⟩ :=
  ⟨(pool_size_bounded_and_create_rollback 2
      [.acquire (.ok ⟨0, false, 0, []⟩), .acquire (.ok ⟨1, false, 0, []⟩),
       .release ⟨0, false, 0, []⟩, .closeall] (by decide)).1,
   (pool_size_bounded_and_create_rollback 2 [] (by decide)).2
      ⟨2, [], 1⟩ (by decide) rfl⟩

/-- C10: in bounded mode `closeall` removes and closes exactly the
connections idle in the queue and never touches the live/created counter
or the bound, so a pool whose counter has reached the bound still blocks
every subsequent acquire even though its idle connections were just
destroyed. -/
theorem closeall_only_drains_queue (p : Pool) :
    (multi_closeall p).1.size = p.size ∧
    (multi_closeall p).1.maxsize = p.maxsize ∧
    (multi_closeall p).1.queue = [] ∧
    (multi_closeall p).2 = p.queue.map connClose ∧
    (p.size ≥ p.maxsize → ∀ cr, multi_get cr (multi_closeall p).1 = .blocked) := by
  refine ⟨rfl, rfl, rfl, rfl, ?_⟩
  intro h cr
  simp only [multi_closeall, multi_get]
  rw [if_pos (Or.inl h)]

/-- Witness for C10 on the full pool `⟨2, [one idle conn], 2⟩`. -/
theorem closeall_only_drains_queue_witness :
    (multi_closeall ⟨2, [⟨0, false, 0, []⟩], 2⟩).1.size = 2 ∧
    multi_get (.ok ⟨1, false, 0, []⟩)
      (multi_closeall ⟨2, [⟨0, false, 0, []⟩], 2⟩).1 = .blocked :=
  ⟨(closeall_only_drains_queue ⟨2, [⟨0, false, 0, []⟩], 2⟩).1,
   (closeall_only_drains_queue ⟨2, [⟨0, false, 0, []⟩], 2⟩).2.2.2.2
      (by decide) (.ok ⟨1, false, 0, []⟩)⟩

theorem restoreIso_closed (c : Conn) (v : Option Int) :
    (restoreIso c v).closed = c.closed := by
  cases v <;> rfl

/-- Counterexample for C5: a connection at isolation level 0 is acquired
with requested level 1 and the body succeeds without touching it; the
connection is returned to the pool still at level 1, its trace showing
the requested level applied twice and no restore of the prior level. -/
theorem iso_level_not_restored :
    connectionScope (some 1) (fun c => ⟨c, false⟩) (.ok ⟨9, false, 0, []⟩)
        false ⟨2, [⟨0, false, 0, []⟩], 1⟩ =
      .ok ⟨2, [⟨0, false, 1, [.setIsoOp 1, .commitOp, .setIsoOp 1]⟩], 1⟩ ∧
    (1 : Int) ≠ 0 := by
  exact ⟨rfl, by decide⟩

/-- C5 (amended): when the requested isolation level differs from the
connection's current one, the connection is set to the requested level,
and on every exit path on which the connection is returned to the pool
(normal commit and rollback-after-error alike) `set_isolation_level` is
re-applied with the *requested* level before release: the connection
re-enters the pool at the requested level; the prior level is never
restored. -/
theorem iso_level_requested_on_release
    (lvl : Int) (body : Conn → BodyOutcome) (create : CreateOutcome)
    (p p1 : Pool) (c : Conn)
    (hacq : multi_get create p = .got c p1)
    (hne : c.isoLevel ≠ lvl) :
    ((body (setIso c lvl)).raisedErr = false →
      (body (setIso c lvl)).connAfter.closed = false →
      connectionScope (some lvl) body create false p =
        .ok (multi_put (setIso (connCommit (body (setIso c lvl)).connAfter) lvl) p1) ∧
      (setIso (connCommit (body (setIso c lvl)).connAfter) lvl).isoLevel = lvl) ∧
    ((body (setIso c lvl)).raisedErr = true →
      (body (setIso c lvl)).connAfter.closed = false →
      connectionScope (some lvl) body create false p =
        .bodyErr (multi_put (setIso (connRollback (body (setIso c lvl)).connAfter) lvl) p1) ∧
      (setIso (connRollback (body (setIso c lvl)).connAfter) lvl).isoLevel = lvl) := by
  have had : isoAdjust (some lvl) c = (setIso c lvl, some lvl) := by
    simp only [isoAdjust]
    rw [if_neg (by simpa using hne)]
  constructor
  · intro h1 h2
    refine ⟨?_, rfl⟩
    simp only [connectionScope, hacq, scopeBody, had, h1, h2, restoreIso]
    rfl
  · intro h1 h2
    refine ⟨?_, rfl⟩
    simp only [connectionScope, hacq, scopeBody, had, h1, h2, restoreIso]
    rfl

/-- Witness for C5 (amended): the concrete normal-exit run of the
counterexample scenario, derived from the general theorem. -/
theorem iso_level_requested_on_release_witness :
    connectionScope (some 1) (fun c => ⟨c, false⟩) (.ok ⟨9, false, 0, []⟩)
        false ⟨2, [⟨0, false, 0, []⟩], 1⟩ =
      .ok ⟨2, [⟨0, false, 1, [.setIsoOp 1, .commitOp, .setIsoOp 1]⟩], 1⟩ ∧
    (⟨0, false, 1, [.setIsoOp 1, .commitOp, .setIsoOp 1]⟩ : Conn).isoLevel = 1 :=
  (iso_level_requested_on_release 1 (fun c => ⟨c, false⟩) (.ok ⟨9, false, 0, []⟩)
      ⟨2, [⟨0, false, 0, []⟩], 1⟩ ⟨2, [], 1⟩ ⟨0, false, 0, []⟩
      rfl (by decide)).1 rfl rfl

/-- Counterexample for C2: a bounded pool at its size bound (maximum size
2, two created connections, both idle); the scope's connection reports
itself closed after an error: the reservoir is emptied and the broken
connection discarded, but the next acquire does not create a fresh
connection — it blocks on the empty queue, because the live counter was
never decremented for the discarded connection. -/
theorem broken_conn_next_acquire_blocks :
    connectionScope none (fun c => ⟨connClose c, true⟩) (.ok ⟨9, false, 0, []⟩)
        false ⟨2, [⟨0, false, 0, []⟩, ⟨1, false, 0, []⟩], 2⟩ =
      .bodyErr ⟨2, [], 2⟩ ∧
    multi_get (.ok ⟨3, false, 0, []⟩) ⟨2, [], 2⟩ = .blocked := by
  exact ⟨rfl, rfl⟩

/-- C2 (amended): in bounded mode, when the body raises and the held
connection reports itself closed, the whole reservoir is emptied and the
broken connection discarded (not returned); the next acquire creates a
fresh connection provided the live counter is still below the maximum
size, and blocks otherwise (the counter is never decremented for the
discarded connection).  When the connection is not closed it is rolled
back and appended to the queue, still open and popped by the next
acquire; if the rollback itself fails the connection is dropped and the
pool is left unchanged. -/
theorem scope_error_rollback_or_flush
    (isoReq : Option Int) (body : Conn → BodyOutcome)
    (create : CreateOutcome) (p p1 : Pool) (c : Conn)
    (hacq : multi_get create p = .got c p1)
    (hraise : (body (isoAdjust isoReq c).1).raisedErr = true) :
    ((body (isoAdjust isoReq c).1).connAfter.closed = true →
      connectionScope isoReq body create false p =
        .bodyErr { p1 with queue := [] } ∧
      (∀ fresh, p1.size < p1.maxsize →
        multi_get (.ok fresh) { p1 with queue := [] } =
          .got fresh { p1 with queue := [], size := p1.size + 1 }) ∧
      (p1.size ≥ p1.maxsize → ∀ cr,
        multi_get cr { p1 with queue := [] } = .blocked)) ∧
    ((body (isoAdjust isoReq c).1).connAfter.closed = false →
      connectionScope isoReq body create false p =
        .bodyErr (multi_put
          (restoreIso (connRollback (body (isoAdjust isoReq c).1).connAfter)
            (isoAdjust isoReq c).2) p1) ∧
      (restoreIso (connRollback (body (isoAdjust isoReq c).1).connAfter)
          (isoAdjust isoReq c).2).closed = false ∧
      (p1.queue = [] → ∀ cr,
        multi_get cr (multi_put
            (restoreIso (connRollback (body (isoAdjust isoReq c).1).connAfter)
              (isoAdjust isoReq c).2) p1) =
          .got (restoreIso (connRollback (body (isoAdjust isoReq c).1).connAfter)
              (isoAdjust isoReq c).2) p1)) ∧
    ((body (isoAdjust isoReq c).1).connAfter.closed = false →
      connectionScope isoReq body create true p = .bodyErr p1) := by
  refine ⟨fun hclosed => ⟨?_, ?_, ?_⟩, fun hopen => ⟨?_, ?_, ?_⟩, fun hopen => ?_⟩
  · simp only [connectionScope, hacq, scopeBody, hraise, hclosed, multi_closeall]
    rfl
  · intro fresh hsz
    simp only [multi_get]
    rw [if_neg (by simp; omega)]
  · intro hsz cr
    simp only [multi_get]
    rw [if_pos (Or.inl hsz)]
  · simp only [connectionScope, hacq, scopeBody, hraise, hopen]
    rfl
  · rw [restoreIso_closed]
    exact hopen
  · intro hq cr
    have hp : ({ p1 with queue := ([] : List Conn) } : Pool) = p1 := by
      rw [← hq]
    simp only [multi_put, multi_get, hq, List.nil_append]
    rw [if_pos (by simp)]
    rw [hp]
  · simp only [connectionScope, hacq, scopeBody, hraise, hopen]
    rfl

/-- Witness for C2 (amended): the rollback branch on a concrete pool — the
rolled-back connection re-enters the queue and the next acquire pops it. -/
theorem scope_error_rollback_or_flush_witness :
    connectionScope none (fun c => ⟨c, true⟩) (.ok ⟨9, false, 0, []⟩) false
        ⟨2, [⟨0, false, 0, []⟩], 1⟩ =
      .bodyErr ⟨2, [⟨0, false, 0, [.rollbackOp]⟩], 1⟩ ∧
    multi_get (.ok ⟨9, false, 0, []⟩) ⟨2, [⟨0, false, 0, [.rollbackOp]⟩], 1⟩ =
      .got ⟨0, false, 0, [.rollbackOp]⟩ ⟨2, [], 1⟩ :=
  ⟨((scope_error_rollback_or_flush none (fun c => ⟨c, true⟩)
      (.ok ⟨9, false, 0, []⟩) ⟨2, [⟨0, false, 0, []⟩], 1⟩ ⟨2, [], 1⟩
      ⟨0, false, 0, []⟩ rfl rfl).2.1 rfl).1,
   ((scope_error_rollback_or_flush none (fun c => ⟨c, true⟩)
      (.ok ⟨9, false, 0, []⟩) ⟨2, [⟨0, false, 0, []⟩], 1⟩ ⟨2, [], 1⟩
      ⟨0, false, 0, []⟩ rfl rfl).2.1 rfl).2.2 rfl (.ok ⟨9, false, 0, []⟩)⟩

end SqueryPg
